import Mathlib

/-!
Shallow embedding of the torchdata IO nodes
(src/torchdata/nodes/io/file_list.py, file_read.py,
text_streaming_decoder.py) and proofs about the claims of the spec.

Python dictionaries with string keys are modelled as association lists in
insertion order; dict.update replaces the value at an existing key in place
and appends new keys at the end, exactly as CPython does.  Filesystem
backends are modelled as snapshot functions: a glob function per pattern
path for the lister, and a function from URI to optional file content for
the reader and the streaming decoder, where a result of none stands for the
underlying open raising an exception.
-/

/-- A metadata value: Python values appearing in the metadata dicts of these
nodes are strings, ints, or None. -/
inductive MVal where
  | str (s : String)
  | nat (n : Nat)
  | null
  deriving DecidableEq, Repr

/-- A Python dict with string keys, in insertion order. -/
abbrev PyDict (α : Type) : Type := List (String × α)

/-- Metadata dict as carried by item envelopes. -/
abbrev Metadata : Type := PyDict MVal

/-- Lookup of a key in a Python dict (d.get(k) / d[k]). -/
def pyGet {α : Type} (d : PyDict α) (k : String) : Option α :=
  (d.find? (fun kv => kv.1 == k)).map (fun kv => kv.2)

/-- Assignment d[k] = v on a Python dict: replaces the value at an existing
key in place, otherwise appends the key at the end. -/
def pySet {α : Type} : PyDict α → String → α → PyDict α
  | [], k, v => [(k, v)]
  | (k', v') :: rest, k, v =>
    if k' = k then (k, v) :: rest else (k', v') :: pySet rest k v

/-- d.update(u): assigns every binding of u into d in order. -/
def pyUpdate {α : Type} (d u : PyDict α) : PyDict α :=
  u.foldl (fun acc kv => pySet acc kv.1 kv.2) d

/-- The item envelope emitted by every stage: payload plus metadata. -/
structure Item where
  data : String
  metadata : Metadata
  deriving DecidableEq, Repr

/-- Result of a pull on a stage that cannot raise beyond end-of-sequence
(FileLister, TextStreamingDecoder): an item or StopIteration. -/
inductive PullRes where
  | item (i : Item)
  | stop
  deriving DecidableEq, Repr

/-- Result of a pull on FileReader: an item, StopIteration, or a re-raised
exception identified by the path that failed. -/
inductive FRRes where
  | item (i : Item)
  | stop
  | err (path : String)
  deriving DecidableEq, Repr

/-- Python os.path.join for the two-argument uses in file_list.py. -/
def pyJoin (a b : String) : String :=
  if b.startsWith "/" then b
  else if a.endsWith "/" then a ++ b
  else a ++ "/" ++ b

/-- Python str.rstrip applied with the newline character: removes every
trailing newline character. -/
def pyRstripNL (s : String) : String :=
  String.mk ((s.data.reverse.dropWhile (fun c => c = '\n')).reverse)

/-- Splitting file content into the chunks successive readline calls (or
line iteration) of a Python text file yield: each chunk keeps its trailing
newline, a final chunk without newline is kept, empty content gives no
chunks. -/
def pyLines (s : String) : List String :=
  let step := fun (acc : List (List Char) × List Char) (c : Char) =>
    if c = '\n' then (acc.1 ++ [acc.2 ++ [c]], ([] : List Char))
    else (acc.1, acc.2 ++ [c])
  let r := s.data.foldl step ([], [])
  (if r.2 = [] then r.1 else r.1 ++ [r.2]).map String.mk

/-! ## FileLister (src/torchdata/nodes/io/file_list.py) -/

/-- Construction-time configuration of FileLister.  protocol is the scheme
resolved by fsspec.core.split_protocol with the local-filesystem default
already applied (that resolution is an external collaborator). -/
structure ListerConfig where
  uri_base : String
  patterns : List String
  protocol : String
  deriving Repr

/-- Snapshot of the backend filesystem as FileLister.reset observes it.
glob returns none when fs.glob raises for that pattern path; listFailure
models an exception escaping the per-pattern loop (the outer except of
reset, a total backend failure). -/
structure ListerBackend where
  glob : String → Option (List String)
  isfile : String → Bool
  listFailure : Bool

/-- The per-pattern collection loop of FileLister.reset: each pattern's glob
results are added (a failing glob is logged and contributes nothing), and
for the pure wildcard patterns directory entries are filtered out. -/
def listerCollect (cfg : ListerConfig) (b : ListerBackend) : List String :=
  cfg.patterns.foldl
    (fun acc pattern =>
      let pattern_path := pyJoin cfg.uri_base pattern
      match b.glob pattern_path with
      | some globMatches =>
          let globMatches :=
            if pattern = "**/*" ∨ pattern = "*" then globMatches.filter b.isfile
            else globMatches
          acc ++ globMatches
      | none => acc)
    []

/-- Deduplicated (set semantics) and lexicographically sorted match list of
FileLister.reset. -/
def listerSorted (cfg : ListerConfig) (b : ListerBackend) : List String :=
  List.insertionSort (fun a b => a ≤ b) (listerCollect cfg b).dedup

/-- The file path list FileLister.reset stores: empty on total backend
failure, otherwise the sorted deduplicated union, scheme-qualified when the
backend is not the local filesystem. -/
def listerComputePaths (cfg : ListerConfig) (b : ListerBackend) : List String :=
  if b.listFailure then []
  else if cfg.protocol ≠ "file" then
    (listerSorted cfg b).map (fun path => cfg.protocol ++ "://" ++ path)
  else listerSorted cfg b

/-- Mutable state of a FileLister instance. -/
structure ListerState where
  file_paths : List String
  current_idx : Nat
  deriving DecidableEq, Repr

/-- The checkpoint dict FileLister.get_state returns. -/
structure ListerCk where
  current_idx : Nat
  deriving DecidableEq, Repr

/-- FileLister.get_state. -/
def listerGetState (s : ListerState) : ListerCk :=
  ⟨s.current_idx⟩

/-- FileLister.reset: recompute the file list from the backend snapshot and
restore the index from the checkpoint when one is given. -/
def listerReset (cfg : ListerConfig) (b : ListerBackend)
    (initial : Option ListerCk) : ListerState :=
  { file_paths := listerComputePaths cfg b
    current_idx := match initial with
      | some ck => ck.current_idx
      | none => 0 }

/-- FileLister.next: StopIteration on an empty list or an exhausted index,
otherwise the path at the current index with protocol metadata. -/
def listerNext (protocol : String) (s : ListerState) : PullRes × ListerState :=
  if s.file_paths = [] then (.stop, s)
  else if h : s.current_idx < s.file_paths.length then
    (.item ⟨s.file_paths.get ⟨s.current_idx, h⟩,
            [("fs_protocol", .str protocol), ("source", .str protocol)]⟩,
     { s with current_idx := s.current_idx + 1 })
  else (.stop, s)

/-! ## FileReader (src/torchdata/nodes/io/file_read.py)

The upstream source consumed by FileReader is modelled, as in the repository
(FileLister, and the mock sources of the tests), as a list of items walked
by an integer cursor whose checkpoint is the cursor itself.  The filesystem
is a snapshot function from URI to optional content, none meaning that
smart_open.open or read raises. -/

/-- The output metadata dict of FileReader.next: the dict literal with the
reserved file_path key, then metadata.update(source_metadata) guarded by
the truthiness of source_metadata. -/
def mkReadMeta (file_path : String) (source_metadata : Metadata) : Metadata :=
  let metadata : Metadata := [("file_path", .str file_path)]
  if source_metadata = [] then metadata else pyUpdate metadata source_metadata

/-- The checkpoint dict FileReader.get_state returns: the upstream source's
own checkpoint under the source key. -/
structure FRCk where
  source : Nat
  deriving DecidableEq, Repr

/-- FileReader.get_state. -/
def fileReaderGetState (srcIdx : Nat) : FRCk :=
  ⟨srcIdx⟩

/-- FileReader.reset: resets the upstream source, passing through the nested
source checkpoint when one is present. -/
def fileReaderReset : Option FRCk → Nat
  | some ck => ck.source
  | none => 0

/-- FileReader.next: pulls exactly one item from the upstream source
(propagating StopIteration), then opens and reads the URI; a failure is
re-raised after the source has already advanced, a success yields the full
content with merged metadata. -/
def fileReaderNext (items : List Item) (fs : String → Option String)
    (srcIdx : Nat) : FRRes × Nat :=
  if h : srcIdx < items.length then
    let it := items.get ⟨srcIdx, h⟩
    match fs it.data with
    | none => (.err it.data, srcIdx + 1)
    | some content => (.item ⟨content, mkReadMeta it.data it.metadata⟩, srcIdx + 1)
  else (.stop, srcIdx)

/-! ## TextStreamingDecoder (src/torchdata/nodes/io/text_streaming_decoder.py) -/

/-- An upstream item for TextStreamingDecoder: either a bare URI string or a
dict with a data key and an optional metadata key. -/
inductive SrcItem where
  | plain (data : String)
  | dictItem (data : String) (metadata : Option Metadata)
  deriving DecidableEq, Repr

/-- The URI _get_next_file extracts from an upstream item. -/
def srcData : SrcItem → String
  | .plain d => d
  | .dictItem d _ => d

/-- The source metadata after _get_next_file consumed an upstream item,
given the previous value: a bare string clears it, a dict with a metadata
key replaces it, a dict without one leaves it unchanged. -/
def srcMeta : SrcItem → Metadata → Metadata
  | .plain _, _ => []
  | .dictItem _ none, m => m
  | .dictItem _ (some md), _ => md

/-- Mutable state of a TextStreamingDecoder instance.  handle is the open
file handle as the list of line chunks not yet consumed (none when no file
is open); srcIdx is the upstream source cursor. -/
structure TSDState where
  srcIdx : Nat
  current_file : Option String
  current_line : Nat
  handle : Option (List String)
  source_metadata : Metadata
  deriving DecidableEq, Repr

/-- The metadata of an emitted line item in _get_next_line: the dict literal
with the reserved file_path and item_idx keys, then
metadata.update(source_metadata) guarded by the truthiness of
source_metadata. -/
def mkLineMeta (current_file : Option String) (item_idx : Nat)
    (source_metadata : Metadata) : Metadata :=
  let fpVal : MVal := match current_file with
    | some f => .str f
    | none => .null
  let metadata : Metadata := [("file_path", fpVal), ("item_idx", .nat item_idx)]
  if source_metadata = [] then metadata else pyUpdate metadata source_metadata

/-- Remaining potential of the handle: one unit per unread line chunk plus
one for closing the handle. -/
def hlen (s : TSDState) : Nat :=
  match s.handle with
  | some lines => lines.length + 1
  | none => 0

/-- Work potential of one upstream item: opening it and reading it to the
end (successful open), or just failing to open it. -/
def filePotential (fs : String → Option String) (it : SrcItem) : Nat :=
  match fs (srcData it) with
  | some content => (pyLines content).length + 2
  | none => 1

/-- Work potential of the upstream items not yet consumed. -/
def srcPotential (src : List SrcItem) (fs : String → Option String)
    (i : Nat) : Nat :=
  (((src.drop i).map (filePotential fs)).sum)

/-- Total decreasing measure for the next() loop of TextStreamingDecoder. -/
def stateM (src : List SrcItem) (fs : String → Option String)
    (s : TSDState) : Nat :=
  hlen s + srcPotential src fs s.srcIdx

/-- TextStreamingDecoder.next: the iterative loop over _get_next_file and
_get_next_line.  With no open handle it pulls the next upstream item
(StopIteration from the source propagates as stop), records its URI and
metadata, and tries to open it — a failed open loops on to the following
upstream item; a successful open resets the line counter and starts a
fresh handle.  With an open handle it emits the next line chunk (newline
stripped, with merged metadata, incrementing the line counter), or on
end-of-file closes the handle and loops back for a new file. -/
def tsdNext (src : List SrcItem) (fs : String → Option String)
    (s : TSDState) : PullRes × TSDState :=
  match hh : s.handle with
  | some (line :: rest) =>
      (.item ⟨pyRstripNL line, mkLineMeta s.current_file s.current_line s.source_metadata⟩,
       { s with handle := some rest, current_line := s.current_line + 1 })
  | some [] =>
      tsdNext src fs { s with handle := none }
  | none =>
      if h : s.srcIdx < src.length then
        let it := src.get ⟨s.srcIdx, h⟩
        let cf := srcData it
        let md := srcMeta it s.source_metadata
        match hfs : fs cf with
        | some content =>
            tsdNext src fs
              { s with srcIdx := s.srcIdx + 1, current_file := some cf,
                       source_metadata := md, current_line := 0,
                       handle := some (pyLines content) }
        | none =>
            tsdNext src fs
              { s with srcIdx := s.srcIdx + 1, current_file := some cf,
                       source_metadata := md, handle := none }
      else (.stop, s)
termination_by stateM src fs s
decreasing_by
  · simp only [stateM, hlen, hh]
    omega
  · have hstep : srcPotential src fs s.srcIdx
        = filePotential fs (src.get ⟨s.srcIdx, h⟩) + srcPotential src fs (s.srcIdx + 1) := by
      simp only [srcPotential, List.drop_eq_getElem_cons h, List.map_cons, List.sum_cons,
        List.get_eq_getElem]
    simp only [stateM, hlen, hh, hstep, filePotential, hfs]
    omega
  · have hstep : srcPotential src fs s.srcIdx
        = filePotential fs (src.get ⟨s.srcIdx, h⟩) + srcPotential src fs (s.srcIdx + 1) := by
      simp only [srcPotential, List.drop_eq_getElem_cons h, List.map_cons, List.sum_cons,
        List.get_eq_getElem]
    simp only [stateM, hlen, hh, hstep, filePotential, hfs]
    omega

/-- A value in the checkpoint dict of TextStreamingDecoder: the nested
upstream checkpoint (an integer cursor for the indexed sources modelled
here), the optional current file URI, a line count, or a metadata dict. -/
inductive CkVal where
  | nat (n : Nat)
  | optStr (s : Option String)
  | md (m : Metadata)
  deriving DecidableEq, Repr

/-- The checkpoint dict of TextStreamingDecoder. -/
abbrev CkDict : Type := PyDict CkVal

/-- TextStreamingDecoder.get_state: exactly the three keys the code writes
(source, current_file, current_line). -/
def tsdGetState (s : TSDState) : CkDict :=
  [("source", .nat s.srcIdx),
   ("current_file", .optStr s.current_file),
   ("current_line", .nat s.current_line)]

/-- The state TextStreamingDecoder holds right after construction or a full
reset(None). -/
def tsdInit : TSDState :=
  ⟨0, none, 0, none, []⟩

/-- TextStreamingDecoder.reset.  With no checkpoint it is a full reset.
With a checkpoint it restores the source cursor and the current_file
(indexing raises on a missing key, modelled as none), current_line and
metadata default to 0 and the empty dict, and a non-null current_file is
re-opened and wound forward by discarding current_line lines — a failing
open or a too-short file raises out of reset (modelled as none). -/
def tsdReset (fs : String → Option String) (initial : Option CkDict) :
    Option TSDState :=
  match initial with
  | none => some tsdInit
  | some ck =>
    match pyGet ck "source", pyGet ck "current_file" with
    | some (.nat srcSt), some (.optStr cf) =>
      let current_line := match pyGet ck "current_line" with
        | some (.nat n) => n
        | _ => 0
      let source_metadata := match pyGet ck "metadata" with
        | some (.md m) => m
        | _ => []
      match cf with
      | none => some ⟨srcSt, none, current_line, none, source_metadata⟩
      | some f =>
        match fs f with
        | none => none
        | some content =>
          let lines := pyLines content
          if current_line ≤ lines.length then
            some ⟨srcSt, some f, current_line,
                  some (lines.drop current_line), source_metadata⟩
          else none
    | _, _ => none

/-- Iterate tsdNext n times, collecting the results in order together with
the final state. -/
def tsdRunN (src : List SrcItem) (fs : String → Option String) :
    Nat → TSDState → List PullRes × TSDState
  | 0, s => ([], s)
  | n + 1, s =>
    let r := tsdNext src fs s
    let rs := tsdRunN src fs n r.2
    (r.1 :: rs.1, rs.2)

/-- The line items a file with the given remaining line chunks yields, for
a fixed current file, source metadata, and starting line index. -/
def expectedEmits (current_file : Option String) (source_metadata : Metadata) :
    Nat → List String → List PullRes
  | _, [] => []
  | j, line :: rest =>
    .item ⟨pyRstripNL line, mkLineMeta current_file j source_metadata⟩
      :: expectedEmits current_file source_metadata (j + 1) rest

/-- An upstream item is consumed without any caller-visible emission when
its URI fails to open or its content holds no line. -/
def skippable (fs : String → Option String) (it : SrcItem) : Bool :=
  match fs (srcData it) with
  | none => true
  | some content => (pyLines content).isEmpty

/-- Metadata of a pull result, empty for the end-of-sequence signal. -/
def pullResMeta : PullRes → Metadata
  | .item i => i.metadata
  | .stop => []

/-- Metadata of a FileReader pull result, empty for stop and errors. -/
def frResMeta : FRRes → Metadata
  | .item i => i.metadata
  | .stop => []
  | .err _ => []

/-! ## Concrete scenario inputs used by counterexamples and witnesses -/

/-- Upstream source of the resume scenario: a single dict item with a URI
and a non-empty metadata dict, the shape FileLister emits. -/
def cexSrc : List SrcItem :=
  [.dictItem "f1" (some [("source", .str "local")])]

/-- Filesystem of the resume scenario: f1 holds two newline-terminated
lines. -/
def cexFs : String → Option String :=
  fun p => if p = "f1" then some "a\nb\n" else none

/-- The TextStreamingDecoder state reached after one next() on the resume
scenario: one line of f1 consumed, upstream metadata recorded. -/
def cexAfterOne : TSDState :=
  ⟨1, some "f1", 1, some ["b\n"], [("source", .str "local")]⟩

/-- The state a fresh instance reaches when reset from the checkpoint taken
at cexAfterOne: the source metadata is gone because the checkpoint has no
metadata key. -/
def cexResumed : TSDState :=
  ⟨1, some "f1", 1, some ["b\n"], []⟩

/-- FileReader upstream whose metadata collides with the reserved file_path
key. -/
def frCollisionItems : List Item :=
  [⟨"f", [("file_path", .str "evil")]⟩]

/-- Filesystem for the FileReader collision scenario. -/
def frFs : String → Option String :=
  fun p => if p = "f" then some "c" else none

/-- TextStreamingDecoder upstream whose metadata collides with the reserved
item_idx key. -/
def tsdIdxSrc : List SrcItem :=
  [.dictItem "g" (some [("item_idx", .str "x")])]

/-- Filesystem for the item_idx collision scenario: g holds one line. -/
def tsdIdxFs : String → Option String :=
  fun p => if p = "g" then some "a\n" else none

/-- Witness source for skip-on-bad-file: a bad URI then a good one. -/
def c4bad : SrcItem := .plain "bad"

/-- The good upstream item of the skip-on-bad-file witness. -/
def c4good : SrcItem := .dictItem "good" (some [("source", .str "local")])

/-- Filesystem of the skip-on-bad-file witness. -/
def c4fs : String → Option String :=
  fun p => if p = "good" then some "x\ny\n" else none

/-- Witness source for line indexing: a two-line file then a one-line
file. -/
def c6src : List SrcItem :=
  [.dictItem "h1" (some [("source", .str "local")]), .plain "h2"]

/-- Filesystem of the line indexing witness. -/
def c6fs : String → Option String :=
  fun p => if p = "h1" then some "l1\nl2\n" else if p = "h2" then some "m1\n" else none

/-- Witness source for the iterative skip loop: a bad URI, an empty file,
then a good file. -/
def c8src : List SrcItem :=
  [.plain "bad", .plain "empty", .plain "ok"]

/-- Filesystem of the iterative skip loop witness. -/
def c8fs : String → Option String :=
  fun p => if p = "empty" then some "" else if p = "ok" then some "z\n" else none

/-- Witness upstream for FileReader: the first URI fails, the second
reads. -/
def c10items : List Item :=
  [⟨"p0", []⟩, ⟨"p1", []⟩]

/-- Filesystem of the FileReader failure witness. -/
def c10fs : String → Option String :=
  fun p => if p = "p1" then some "w" else none

/-- Witness configuration for the lister: a remote scheme and two patterns,
the second of which fails to glob. -/
def wCfg : ListerConfig :=
  ⟨"base", ["*.txt", "*.bad"], "s3"⟩

/-- Witness backend for the lister: duplicated unsorted glob results for
the first pattern, a raising glob for the second. -/
def wBackend : ListerBackend :=
  ⟨fun p => if p = "base/*.txt" then some ["b", "a", "b"] else none,
   fun _ => true, false⟩

/-- Witness backend in total failure. -/
def wBackendFail : ListerBackend :=
  ⟨fun _ => none, fun _ => true, true⟩

/-! ## Helper lemmas -/

theorem pyGet_cons {α : Type} (k1 : String) (v1 : α) (rest : PyDict α) (k : String) :
    pyGet ((k1, v1) :: rest) k = if k1 = k then some v1 else pyGet rest k := by
  by_cases h : k1 = k
  · simp [pyGet, List.find?, h]
  · have hb : (k1 == k) = false := beq_eq_false_iff_ne.mpr h
    simp [pyGet, List.find?, hb, h]

theorem pyGet_pySet_ne {α : Type} (d : PyDict α) (k k' : String) (v : α)
    (h : k' ≠ k) : pyGet (pySet d k v) k' = pyGet d k' := by
  induction d with
  | nil => simp [pySet, pyGet_cons, Ne.symm h, pyGet]
  | cons kv rest ih =>
    obtain ⟨k1, v1⟩ := kv
    by_cases h1 : k1 = k
    · subst h1
      simp [pySet, pyGet_cons, Ne.symm h]
    · simp [pySet, h1, pyGet_cons, ih]

theorem pyGet_pyUpdate_of_not_mem {α : Type} (u d : PyDict α) (k : String)
    (h : pyGet u k = none) : pyGet (pyUpdate d u) k = pyGet d k := by
  induction u generalizing d with
  | nil => simp [pyUpdate]
  | cons kv rest ih =>
    obtain ⟨k1, v1⟩ := kv
    rw [pyGet_cons] at h
    by_cases h1 : k1 = k
    · simp [h1] at h
    · have h2 : pyGet rest k = none := by simpa [h1] using h
      have : pyUpdate d ((k1, v1) :: rest) = pyUpdate (pySet d k1 v1) rest := by
        simp [pyUpdate]
      rw [this, ih _ h2, pyGet_pySet_ne _ _ _ _ (fun he => h1 he.symm)]

theorem pyGet_mkLineMeta_item_idx (cf : Option String) (j : Nat) (md : Metadata)
    (h : pyGet md "item_idx" = none) :
    pyGet (mkLineMeta cf j md) "item_idx" = some (.nat j) := by
  unfold mkLineMeta
  by_cases hmd : md = []
  · cases cf <;> simp [hmd, pyGet_cons]
  · cases cf <;>
      simp only [hmd, if_neg, ite_false] <;>
      rw [pyGet_pyUpdate_of_not_mem _ _ _ h] <;>
      simp [pyGet_cons]

theorem pyGet_mkReadMeta_file_path (fp : String) (md : Metadata)
    (h : pyGet md "file_path" = none) :
    pyGet (mkReadMeta fp md) "file_path" = some (.str fp) := by
  unfold mkReadMeta
  by_cases hmd : md = []
  · simp [hmd, pyGet_cons]
  · simp only [hmd, ite_false]
    rw [pyGet_pyUpdate_of_not_mem _ _ _ h]
    simp [pyGet_cons]

theorem tsdNext_emit (src : List SrcItem) (fs : String → Option String)
    (s : TSDState) (line : String) (rest : List String)
    (h : s.handle = some (line :: rest)) :
    tsdNext src fs s =
      (.item ⟨pyRstripNL line, mkLineMeta s.current_file s.current_line s.source_metadata⟩,
       { s with handle := some rest, current_line := s.current_line + 1 }) := by
  rw [tsdNext.eq_def, h]

theorem tsdNext_eof (src : List SrcItem) (fs : String → Option String)
    (s : TSDState) (h : s.handle = some []) :
    tsdNext src fs s = tsdNext src fs { s with handle := none } := by
  rw [tsdNext.eq_def, h]

theorem tsdNext_exhausted (src : List SrcItem) (fs : String → Option String)
    (s : TSDState) (h0 : s.handle = none) (h : ¬ s.srcIdx < src.length) :
    tsdNext src fs s = (.stop, s) := by
  rw [tsdNext.eq_def, h0]
  simp [h]

theorem tsdNext_open_ok (src : List SrcItem) (fs : String → Option String)
    (s : TSDState) (h0 : s.handle = none) (h : s.srcIdx < src.length)
    (content : String) (hfs : fs (srcData (src.get ⟨s.srcIdx, h⟩)) = some content) :
    tsdNext src fs s =
      tsdNext src fs
        { s with srcIdx := s.srcIdx + 1,
                 current_file := some (srcData (src.get ⟨s.srcIdx, h⟩)),
                 source_metadata := srcMeta (src.get ⟨s.srcIdx, h⟩) s.source_metadata,
                 current_line := 0,
                 handle := some (pyLines content) } := by
  rw [tsdNext.eq_def, h0]
  simp only [h, dif_pos]
  split
  · rename_i content2 heq
    have heq2 : fs (srcData (src.get ⟨s.srcIdx, h⟩)) = some content2 := heq
    rw [hfs] at heq2
    injection heq2 with hc
    subst hc
    rfl
  · rename_i heq
    have heq2 : fs (srcData (src.get ⟨s.srcIdx, h⟩)) = none := heq
    rw [hfs] at heq2
    exact absurd heq2 (by simp)

theorem tsdNext_open_fail (src : List SrcItem) (fs : String → Option String)
    (s : TSDState) (h0 : s.handle = none) (h : s.srcIdx < src.length)
    (hfs : fs (srcData (src.get ⟨s.srcIdx, h⟩)) = none) :
    tsdNext src fs s =
      tsdNext src fs
        { s with srcIdx := s.srcIdx + 1,
                 current_file := some (srcData (src.get ⟨s.srcIdx, h⟩)),
                 source_metadata := srcMeta (src.get ⟨s.srcIdx, h⟩) s.source_metadata,
                 handle := none } := by
  rw [tsdNext.eq_def, h0]
  simp only [h, dif_pos]
  split
  · rename_i content2 heq
    have heq2 : fs (srcData (src.get ⟨s.srcIdx, h⟩)) = some content2 := heq
    rw [hfs] at heq2
    exact absurd heq2 (by simp)
  · rfl

theorem tsdRunN_congr (src : List SrcItem) (fs : String → Option String)
    (n : Nat) (s s2 : TSDState) (h : tsdNext src fs s = tsdNext src fs s2) :
    tsdRunN src fs (n + 1) s = tsdRunN src fs (n + 1) s2 := by
  simp [tsdRunN, h]

theorem tsdRunN_add (src : List SrcItem) (fs : String → Option String)
    (m n : Nat) (s : TSDState) :
    tsdRunN src fs (m + n) s =
      ((tsdRunN src fs m s).1 ++ (tsdRunN src fs n (tsdRunN src fs m s).2).1,
       (tsdRunN src fs n (tsdRunN src fs m s).2).2) := by
  induction m generalizing s with
  | zero => simp [tsdRunN]
  | succ m ih =>
    rw [Nat.succ_add]
    simp only [tsdRunN, ih]
    simp

theorem tsdRunN_file (src : List SrcItem) (fs : String → Option String) :
    ∀ (lines : List String) (s : TSDState), s.handle = some lines →
      tsdRunN src fs lines.length s =
        (expectedEmits s.current_file s.source_metadata s.current_line lines,
         { s with handle := some [], current_line := s.current_line + lines.length }) := by
  intro lines
  induction lines with
  | nil =>
    intro s hs
    obtain ⟨i, cf, cl, hd, md⟩ := s
    simp only at hs
    subst hs
    simp [tsdRunN, expectedEmits]
  | cons line rest ih =>
    intro s hs
    have h1 := tsdNext_emit src fs s line rest hs
    have h2 := ih { s with handle := some rest, current_line := s.current_line + 1 }
      (by simp)
    simp only [List.length_cons, tsdRunN, h1, h2, expectedEmits]
    rw [Nat.add_assoc, Nat.add_comm 1 rest.length]

theorem expectedEmits_getD (current_file : Option String) (source_metadata : Metadata) :
    ∀ (lines : List String) (j0 j : Nat) (hj : j < lines.length),
      (expectedEmits current_file source_metadata j0 lines).getD j .stop =
        .item ⟨pyRstripNL (lines.get ⟨j, hj⟩),
               mkLineMeta current_file (j0 + j) source_metadata⟩ := by
  intro lines
  induction lines with
  | nil => intro j0 j hj; simp at hj
  | cons line rest ih =>
    intro j0 j hj
    cases j with
    | zero => simp [expectedEmits]
    | succ j =>
      have := ih (j0 + 1) j (by simpa using hj)
      simp only [expectedEmits, List.getD_cons_succ, this, List.get_eq_getElem,
        List.getElem_cons_succ]
      have : j0 + 1 + j = j0 + (j + 1) := by omega
      rw [this]

theorem cex_first_next :
    tsdNext cexSrc cexFs tsdInit =
      (.item ⟨"a", [("file_path", .str "f1"), ("item_idx", .nat 0),
                    ("source", .str "local")]⟩,
       cexAfterOne) := by
  rw [tsdNext_open_ok cexSrc cexFs tsdInit rfl (by decide) "a\nb\n" rfl]
  rw [tsdNext_emit _ _ _ "a\n" ["b\n"] rfl]
  rfl

theorem cex_second_next_uninterrupted :
    tsdNext cexSrc cexFs cexAfterOne =
      (.item ⟨"b", [("file_path", .str "f1"), ("item_idx", .nat 1),
                    ("source", .str "local")]⟩,
       ⟨1, some "f1", 2, some [], [("source", .str "local")]⟩) := by
  rw [tsdNext_emit _ _ _ "b\n" [] rfl]
  rfl

theorem cex_resumed_state :
    tsdReset cexFs (some (tsdGetState cexAfterOne)) = some cexResumed := by
  rfl

theorem cex_second_next_resumed :
    tsdNext cexSrc cexFs cexResumed =
      (.item ⟨"b", [("file_path", .str "f1"), ("item_idx", .nat 1)]⟩,
       ⟨1, some "f1", 2, some [], []⟩) := by
  rw [tsdNext_emit _ _ _ "b\n" [] rfl]
  rfl

/-- C1: resume equivalence fails for TextStreamingDecoder on a mid-file
resume.  On the one-file source cexSrc (whose item carries the upstream
metadata key source), checkpointing after one next() and resuming a fresh
instance yields, on the next pull, the same payload "b" but a metadata dict
without the upstream source key, while the uninterrupted run's second item
keeps it: get_state omits the metadata entry that reset would restore, so
the resumed item is not the same item.  Lister and BulkReader resume
equivalence does hold (lister_resume_equivalent,
fileReader_resume_equivalent below). -/
theorem resume_equivalence_fails_mid_file :
    (tsdNext cexSrc cexFs (tsdNext cexSrc cexFs tsdInit).2).1
      = .item ⟨"b", [("file_path", .str "f1"), ("item_idx", .nat 1),
                     ("source", .str "local")]⟩ ∧
    tsdReset cexFs (some (tsdGetState (tsdNext cexSrc cexFs tsdInit).2))
      = some cexResumed ∧
    (tsdNext cexSrc cexFs cexResumed).1
      = .item ⟨"b", [("file_path", .str "f1"), ("item_idx", .nat 1)]⟩ ∧
    pyGet (pullResMeta (tsdNext cexSrc cexFs (tsdNext cexSrc cexFs tsdInit).2).1)
      "source" = some (.str "local") ∧
    pyGet (pullResMeta (tsdNext cexSrc cexFs cexResumed).1) "source" = none := by
  refine ⟨?_, ?_, ?_, ?_, ?_⟩
  · simp only [cex_first_next, cex_second_next_uninterrupted]
  · simp only [cex_first_next]
    exact cex_resumed_state
  · simp only [cex_second_next_resumed]
  · simp only [cex_first_next, cex_second_next_uninterrupted]
    rfl
  · simp only [cex_second_next_resumed]
    rfl

/-- C2: the checkpoint of TextStreamingDecoder does not contain the
last-seen source metadata.  At the reachable state cexAfterOne (whose
source_metadata is non-empty), get_state returns exactly the three keys
source, current_file and current_line, the metadata key is absent, and
resetting from that checkpoint restores an empty source_metadata — so only
three of the four claimed fields are saved and restored. -/
theorem checkpoint_omits_source_metadata :
    (tsdNext cexSrc cexFs tsdInit).2 = cexAfterOne ∧
    cexAfterOne.source_metadata = [("source", .str "local")] ∧
    tsdGetState cexAfterOne
      = [("source", .nat 1), ("current_file", .optStr (some "f1")),
         ("current_line", .nat 1)] ∧
    pyGet (tsdGetState cexAfterOne) "metadata" = none ∧
    (tsdReset cexFs (some (tsdGetState cexAfterOne))).map TSDState.source_metadata
      = some [] := by
  refine ⟨?_, rfl, rfl, rfl, rfl⟩
  rw [cex_first_next]

/-- C3: on a key collision with a stage's reserved metadata key the
upstream value wins, not the emitting stage's.  FileReader consuming the
URI f under upstream metadata containing file_path ↦ evil emits file_path ↦
evil, and TextStreamingDecoder consuming g under upstream metadata
containing item_idx ↦ x emits item_idx ↦ x instead of the line index 0:
both build the reserved dict first and then call update(source_metadata),
so dict.update overrides the reserved keys. -/
theorem metadata_reserved_keys_overridden :
    frCollisionItems.map Item.data = ["f"] ∧
    pyGet (frResMeta (fileReaderNext frCollisionItems frFs 0).1) "file_path"
      = some (.str "evil") ∧
    pyGet (pullResMeta (tsdNext tsdIdxSrc tsdIdxFs tsdInit).1) "item_idx"
      = some (.str "x") := by
  refine ⟨rfl, rfl, ?_⟩
  rw [tsdNext_open_ok tsdIdxSrc tsdIdxFs tsdInit rfl (by decide) "a\n" rfl]
  rw [tsdNext_emit _ _ _ "a\n" [] rfl]
  rfl

/-- Counterexample to C5 as stated: when the upstream metadata itself
carries a file_path key, the content item FileReader emits does not carry
file_path equal to the consumed URI f but the upstream value evil. -/
theorem fileReader_filepath_claim_false :
    frCollisionItems.map Item.data = ["f"] ∧
    (fileReaderNext frCollisionItems frFs 0).1
      = .item ⟨"c", [("file_path", .str "evil")]⟩ ∧
    pyGet (frResMeta (fileReaderNext frCollisionItems frFs 0).1) "file_path"
      ≠ some (.str "f") := by
  refine ⟨rfl, rfl, by decide⟩

/-- Counterexample to C6 as stated: when the upstream metadata itself
carries an item_idx key, the first line item of a one-line file carries
that upstream value instead of the line index 0. -/
theorem tsd_item_idx_claim_false :
    (tsdNext tsdIdxSrc tsdIdxFs tsdInit).1
      = .item ⟨"a", [("file_path", .str "g"), ("item_idx", .str "x")]⟩ ∧
    pyGet (pullResMeta (tsdNext tsdIdxSrc tsdIdxFs tsdInit).1) "item_idx"
      ≠ some (.nat 0) := by
  have h : tsdNext tsdIdxSrc tsdIdxFs tsdInit
      = (.item ⟨"a", [("file_path", .str "g"), ("item_idx", .str "x")]⟩,
         ⟨1, some "g", 1, some [], [("item_idx", .str "x")]⟩) := by
    rw [tsdNext_open_ok tsdIdxSrc tsdIdxFs tsdInit rfl (by decide) "a\n" rfl]
    rw [tsdNext_emit _ _ _ "a\n" [] rfl]
    rfl
  rw [h]
  exact ⟨rfl, by decide⟩

/-- C4: on an upstream sequence of a URI that fails to open followed by a
readable URI, TextStreamingDecoder emits exactly the readable file's lines
followed by the end-of-sequence signal, with no other outcome possible (the
pull result type of the stage has no error constructor: open failures are
absorbed inside next() by pulling the next upstream item, as the proof
steps through tsdNext_open_fail). -/
theorem tsd_skip_bad_file (b g : SrcItem) (fs : String → Option String)
    (c : String) (hb : fs (srcData b) = none) (hg : fs (srcData g) = some c) :
    (tsdRunN [b, g] fs ((pyLines c).length + 1) tsdInit).1
      = expectedEmits (some (srcData g)) (srcMeta g (srcMeta b [])) 0 (pyLines c)
        ++ [.stop] := by
  have e1 : tsdNext [b, g] fs tsdInit
      = tsdNext [b, g] fs ⟨1, some (srcData b), 0, none, srcMeta b []⟩ :=
    tsdNext_open_fail [b, g] fs tsdInit rfl (by simp [tsdInit]) hb
  have e2 : tsdNext [b, g] fs ⟨1, some (srcData b), 0, none, srcMeta b []⟩
      = tsdNext [b, g] fs
          ⟨2, some (srcData g), 0, some (pyLines c), srcMeta g (srcMeta b [])⟩ :=
    tsdNext_open_ok [b, g] fs _ rfl (by simp) c hg
  rw [tsdRunN_congr [b, g] fs (pyLines c).length tsdInit _ (e1.trans e2)]
  rw [tsdRunN_add [b, g] fs (pyLines c).length 1 _]
  rw [tsdRunN_file [b, g] fs (pyLines c)
    ⟨2, some (srcData g), 0, some (pyLines c), srcMeta g (srcMeta b [])⟩ rfl]
  have e3 : tsdNext [b, g] fs
      ⟨2, some (srcData g), (pyLines c).length, some [],
       srcMeta g (srcMeta b [])⟩
      = (.stop, ⟨2, some (srcData g), (pyLines c).length, none,
                 srcMeta g (srcMeta b [])⟩) := by
    rw [tsdNext_eof _ _ _ rfl]
    exact tsdNext_exhausted _ _ _ rfl (by simp)
  simp [tsdRunN, e3]

/-- Witness for tsd_skip_bad_file: the bad URI then a two-line good file
emits the two stripped lines then stop. -/
theorem tsd_skip_bad_file_witness :
    (tsdRunN [c4bad, c4good] c4fs ((pyLines "x\ny\n").length + 1) tsdInit).1
      = expectedEmits (some (srcData c4good))
          (srcMeta c4good (srcMeta c4bad [])) 0 (pyLines "x\ny\n")
        ++ [.stop] :=
  tsd_skip_bad_file c4bad c4good c4fs "x\ny\n" rfl rfl

theorem fileReaderNext_none (items : List Item) (fs : String → Option String)
    (idx : Nat) (h : idx < items.length)
    (hf : fs ((items.get ⟨idx, h⟩).data) = none) :
    fileReaderNext items fs idx = (.err ((items.get ⟨idx, h⟩).data), idx + 1) := by
  simp only [fileReaderNext, dif_pos h]
  split
  · rfl
  · rename_i c2 heq
    have heq2 : fs ((items.get ⟨idx, h⟩).data) = some c2 := heq
    rw [hf] at heq2
    exact absurd heq2 (by simp)

theorem fileReaderNext_some (items : List Item) (fs : String → Option String)
    (idx : Nat) (h : idx < items.length) (c : String)
    (hc : fs ((items.get ⟨idx, h⟩).data) = some c) :
    fileReaderNext items fs idx
      = (.item ⟨c, mkReadMeta ((items.get ⟨idx, h⟩).data)
                     ((items.get ⟨idx, h⟩).metadata)⟩, idx + 1) := by
  simp only [fileReaderNext, dif_pos h]
  split
  · rename_i heq
    have heq2 : fs ((items.get ⟨idx, h⟩).data) = none := heq
    rw [hc] at heq2
    exact absurd heq2 (by simp)
  · rename_i c2 heq
    have heq2 : fs ((items.get ⟨idx, h⟩).data) = some c2 := heq
    rw [hc] at heq2
    injection heq2 with hc2
    subst hc2
    rfl

/-- C5 (amended): FileReader.next re-raises an open/read failure after the
upstream source has been consumed by exactly one item, with no skip inside
the call; on success it returns the complete content, and its metadata
carries file_path equal to the consumed URI provided the upstream metadata
does not itself contain a file_path key (otherwise the upstream value
overrides it, see fileReader_filepath_claim_false). -/
theorem fileReader_next_contract (items : List Item)
    (fs : String → Option String) (idx : Nat) (h : idx < items.length) :
    (fs ((items.get ⟨idx, h⟩).data) = none →
       fileReaderNext items fs idx = (.err ((items.get ⟨idx, h⟩).data), idx + 1)) ∧
    (∀ c, fs ((items.get ⟨idx, h⟩).data) = some c →
       fileReaderNext items fs idx
         = (.item ⟨c, mkReadMeta ((items.get ⟨idx, h⟩).data)
                        ((items.get ⟨idx, h⟩).metadata)⟩, idx + 1) ∧
       (pyGet ((items.get ⟨idx, h⟩).metadata) "file_path" = none →
          pyGet (mkReadMeta ((items.get ⟨idx, h⟩).data)
                   ((items.get ⟨idx, h⟩).metadata)) "file_path"
            = some (.str ((items.get ⟨idx, h⟩).data)))) := by
  refine ⟨fun hf => fileReaderNext_none items fs idx h hf,
    fun c hc => ⟨fileReaderNext_some items fs idx h c hc,
      fun hnp => pyGet_mkReadMeta_file_path _ _ hnp⟩⟩

/-- Witness for fileReader_next_contract at the concrete two-item upstream
c10items: the first URI fails to open and the second reads with content
w. -/
theorem fileReader_next_contract_witness :
    fileReaderNext c10items c10fs 0 = (.err "p0", 1) ∧
    fileReaderNext c10items c10fs 1 = (.item ⟨"w", [("file_path", .str "p1")]⟩, 2) ∧
    pyGet (mkReadMeta "p1" []) "file_path" = some (.str "p1") := by
  have h0 := fileReader_next_contract c10items c10fs 0 (by decide)
  have h1 := fileReader_next_contract c10items c10fs 1 (by decide)
  exact ⟨h0.1 rfl, (h1.2 "w" rfl).1, (h1.2 "w" rfl).2 rfl⟩

/-- C10: when FileReader.next fails to open or read, the upstream source
has already advanced past the failed item: the post-state cursor is idx +
1, the checkpoint taken after the failure wraps that advanced cursor,
resetting a fresh reader from it restores idx + 1, and a subsequent next()
processes the following upstream item (erroring or succeeding on it), never
retrying the failed one. -/
theorem fileReader_failure_advances (items : List Item)
    (fs : String → Option String) (idx : Nat) (h : idx < items.length)
    (hf : fs ((items.get ⟨idx, h⟩).data) = none) :
    fileReaderNext items fs idx = (.err ((items.get ⟨idx, h⟩).data), idx + 1) ∧
    fileReaderGetState (fileReaderNext items fs idx).2 = ⟨idx + 1⟩ ∧
    fileReaderReset (some (fileReaderGetState (fileReaderNext items fs idx).2))
      = idx + 1 ∧
    (∀ h2 : idx + 1 < items.length,
       (fs ((items.get ⟨idx + 1, h2⟩).data) = none →
          fileReaderNext items fs (idx + 1)
            = (.err ((items.get ⟨idx + 1, h2⟩).data), idx + 2)) ∧
       (∀ c, fs ((items.get ⟨idx + 1, h2⟩).data) = some c →
          fileReaderNext items fs (idx + 1)
            = (.item ⟨c, mkReadMeta ((items.get ⟨idx + 1, h2⟩).data)
                           ((items.get ⟨idx + 1, h2⟩).metadata)⟩, idx + 2))) := by
  have hmain := fileReaderNext_none items fs idx h hf
  refine ⟨hmain, by rw [hmain]; rfl, by rw [hmain]; rfl,
    fun h2 => ⟨fun hf2 => fileReaderNext_none items fs (idx + 1) h2 hf2,
               fun c hc2 => fileReaderNext_some items fs (idx + 1) h2 c hc2⟩⟩

/-- Witness for fileReader_failure_advances on the concrete upstream
c10items where p0 fails and p1 succeeds. -/
theorem fileReader_failure_advances_witness :
    fileReaderNext c10items c10fs 0 = (.err "p0", 0 + 1) ∧
    fileReaderGetState (fileReaderNext c10items c10fs 0).2 = ⟨0 + 1⟩ ∧
    fileReaderReset (some (fileReaderGetState (fileReaderNext c10items c10fs 0).2))
      = 0 + 1 ∧
    (∀ h2 : 0 + 1 < c10items.length,
       (c10fs ((c10items.get ⟨0 + 1, h2⟩).data) = none →
          fileReaderNext c10items c10fs (0 + 1)
            = (.err ((c10items.get ⟨0 + 1, h2⟩).data), 0 + 2)) ∧
       (∀ c, c10fs ((c10items.get ⟨0 + 1, h2⟩).data) = some c →
          fileReaderNext c10items c10fs (0 + 1)
            = (.item ⟨c, mkReadMeta ((c10items.get ⟨0 + 1, h2⟩).data)
                           ((c10items.get ⟨0 + 1, h2⟩).metadata)⟩, 0 + 2))) :=
  fileReader_failure_advances c10items c10fs 0 (by decide) rfl

/-- C6 (amended): provided the source metadata in effect for a file carries
no item_idx key (otherwise it overrides the line index, see
tsd_item_idx_claim_false), a successfully opened file with k = lines.length
line chunks yields exactly k line items, the j-th being the j-th chunk
stripped of its newline with item_idx j, after which the handle sits at end
of file with the line counter at k; and the first item emitted from the
next file that opens again carries item_idx 0. -/
theorem tsd_line_indexing (src : List SrcItem) (fs : String → Option String)
    (s : TSDState) (it : SrcItem) (c : String) (lines : List String)
    (h0 : s.handle = none) (h : s.srcIdx < src.length)
    (hit : src.get ⟨s.srcIdx, h⟩ = it)
    (hc : fs (srcData it) = some c) (hk : pyLines c = lines)
    (hne : lines ≠ [])
    (hmd : pyGet (srcMeta it s.source_metadata) "item_idx" = none) :
    tsdRunN src fs lines.length s
      = (expectedEmits (some (srcData it)) (srcMeta it s.source_metadata) 0 lines,
         ⟨s.srcIdx + 1, some (srcData it), lines.length, some [],
          srcMeta it s.source_metadata⟩) ∧
    (∀ j (hj : j < lines.length),
       (expectedEmits (some (srcData it)) (srcMeta it s.source_metadata) 0
           lines).getD j .stop
         = .item ⟨pyRstripNL (lines.get ⟨j, hj⟩),
                  mkLineMeta (some (srcData it)) j
                    (srcMeta it s.source_metadata)⟩) ∧
    (∀ j, pyGet (mkLineMeta (some (srcData it)) j
        (srcMeta it s.source_metadata)) "item_idx" = some (.nat j)) ∧
    (∀ (h2 : s.srcIdx + 1 < src.length) (it2 : SrcItem) (c2 l2 : String)
        (r2 : List String),
       src.get ⟨s.srcIdx + 1, h2⟩ = it2 →
       fs (srcData it2) = some c2 →
       pyLines c2 = l2 :: r2 →
       (tsdNext src fs ⟨s.srcIdx + 1, some (srcData it), lines.length, some [],
                        srcMeta it s.source_metadata⟩).1
         = .item ⟨pyRstripNL l2,
                  mkLineMeta (some (srcData it2)) 0
                    (srcMeta it2 (srcMeta it s.source_metadata))⟩) := by
  subst hit
  refine ⟨?_, ?_, ?_, ?_⟩
  · obtain ⟨l, ls, hls⟩ : ∃ l ls, lines = l :: ls := by
      cases lines with
      | nil => exact absurd rfl hne
      | cons l ls => exact ⟨l, ls, rfl⟩
    have e1 := tsdNext_open_ok src fs s h0 h c hc
    have hrun := tsdRunN_congr src fs ls.length s _ e1
    rw [hls, List.length_cons, hrun]
    have hfile := tsdRunN_file src fs lines
      { s with srcIdx := s.srcIdx + 1,
               current_file := some (srcData (src.get ⟨s.srcIdx, h⟩)),
               source_metadata := srcMeta (src.get ⟨s.srcIdx, h⟩) s.source_metadata,
               current_line := 0,
               handle := some (pyLines c) } (by simp [hk])
    rw [hls, List.length_cons] at hfile
    rw [hfile]
    simp [hls]
  · intro j hj
    rw [expectedEmits_getD _ _ lines 0 j hj, Nat.zero_add]
  · intro j
    exact pyGet_mkLineMeta_item_idx _ _ _ hmd
  · intro h2 it2 c2 l2 r2 hit2 hc2 hl2
    subst hit2
    rw [tsdNext_eof _ _ _ rfl]
    rw [tsdNext_open_ok src fs _ rfl h2 c2 hc2]
    rw [hl2]
    rw [tsdNext_emit _ _ _ l2 r2 rfl]

/-- Resume equivalence for FileLister: next() on a fresh instance reset
from a checkpoint of any state over the same backend list agrees with
next() on the original state. -/
theorem lister_resume_equivalent (cfg : ListerConfig) (b : ListerBackend)
    (p : String) (s : ListerState)
    (hs : s.file_paths = listerComputePaths cfg b) :
    listerNext p (listerReset cfg b (some (listerGetState s))) = listerNext p s := by
  obtain ⟨fp, i⟩ := s
  simp only at hs
  subst hs
  rfl

/-- Resume equivalence for FileReader: next() after a reset from the
checkpoint of any source cursor agrees with next() from that cursor. -/
theorem fileReader_resume_equivalent (items : List Item)
    (fs : String → Option String) (idx : Nat) :
    fileReaderNext items fs (fileReaderReset (some (fileReaderGetState idx)))
      = fileReaderNext items fs idx := rfl

/-- C7: FileLister.reset degrades rather than raises: under total backend
failure the stored file list is empty; failing glob patterns contribute
nothing while the remaining patterns still contribute (dropping them from
the pattern list does not change the result); and with an empty file list
next() returns the end-of-sequence signal, so callers observe no files
rather than an exception (reset itself is a total function in this
embedding: every backend snapshot yields a state). -/
theorem lister_failure_policy (cfg : ListerConfig) (b : ListerBackend) :
    (b.listFailure = true → listerComputePaths cfg b = []) ∧
    listerComputePaths cfg b
      = listerComputePaths
          { cfg with
              patterns := cfg.patterns.filter
                            (fun p => (b.glob (pyJoin cfg.uri_base p)).isSome) } b ∧
    (∀ s : ListerState, s.file_paths = [] →
       listerNext cfg.protocol s = (.stop, s)) := by
  refine ⟨fun hf => by simp [listerComputePaths, hf], ?_,
    fun s hs => by simp [listerNext, hs]⟩
  have key : ∀ (pats : List String) (acc : List String),
      pats.foldl
        (fun acc pattern =>
          let pattern_path := pyJoin cfg.uri_base pattern
          match b.glob pattern_path with
          | some globMatches =>
              let globMatches :=
                if pattern = "**/*" ∨ pattern = "*" then globMatches.filter b.isfile
                else globMatches
              acc ++ globMatches
          | none => acc) acc
      = (pats.filter (fun p => (b.glob (pyJoin cfg.uri_base p)).isSome)).foldl
          (fun acc pattern =>
            let pattern_path := pyJoin cfg.uri_base pattern
            match b.glob pattern_path with
            | some globMatches =>
                let globMatches :=
                  if pattern = "**/*" ∨ pattern = "*" then globMatches.filter b.isfile
                  else globMatches
                acc ++ globMatches
            | none => acc) acc := by
    intro pats
    induction pats with
    | nil => intro acc; rfl
    | cons p rest ih =>
      intro acc
      cases hgp : b.glob (pyJoin cfg.uri_base p) with
      | some gm =>
        rw [List.filter_cons_of_pos (by simp [hgp])]
        simp only [List.foldl_cons, hgp]
        exact ih _
      | none =>
        rw [List.filter_cons_of_neg (by simp [hgp])]
        simp only [List.foldl_cons, hgp]
        exact ih _
  simp only [listerComputePaths, listerSorted, listerCollect]
  rw [key cfg.patterns []]

/-- Witness for lister_failure_policy on the witness backend: the failing
pattern *.bad contributes nothing, the total-failure backend yields the
empty list, and next() on an empty list stops. -/
theorem lister_failure_policy_witness :
    listerComputePaths wCfg wBackendFail = [] ∧
    listerComputePaths wCfg wBackend
      = listerComputePaths
          { wCfg with
              patterns := wCfg.patterns.filter
                            (fun p => (wBackend.glob (pyJoin wCfg.uri_base p)).isSome) } wBackend ∧
    listerNext wCfg.protocol ⟨[], 0⟩ = (.stop, ⟨[], 0⟩) := by
  refine ⟨(lister_failure_policy wCfg wBackendFail).1 rfl,
          (lister_failure_policy wCfg wBackend).2.1,
          (lister_failure_policy wCfg wBackend).2.2 ⟨[], 0⟩ rfl⟩

/-- Witness for tsd_line_indexing: the two-line file h1 of the witness
source emits its two lines and leaves the line counter at 2. -/
theorem tsd_line_indexing_witness :
    tsdRunN c6src c6fs 2 tsdInit
      = (expectedEmits (some "h1") [("source", .str "local")] 0 ["l1\n", "l2\n"],
         ⟨1, some "h1", 2, some [], [("source", .str "local")]⟩) :=
  (tsd_line_indexing c6src c6fs tsdInit
    (.dictItem "h1" (some [("source", .str "local")])) "l1\nl2\n"
    ["l1\n", "l2\n"] rfl (by decide) rfl rfl rfl (by decide) rfl).1

/-- C8: a run of upstream items that fail to open or hold zero lines is
consumed inside one next() call: the caller-visible result of next() is
always a line item or the end-of-sequence signal (the pull result type has
no other constructor), and skipping all such items up to position j leaves
the very same call result as starting at j.  Termination of the loop on a
finite source is witnessed by tsdNext itself being total, defined by the
decreasing measure stateM. -/
theorem tsd_next_total_skips (src : List SrcItem) (fs : String → Option String)
    (s : TSDState) (j : Nat) (h0 : s.handle = none) (hle : s.srcIdx ≤ j)
    (hj : j ≤ src.length)
    (hskip : ∀ i (hi : i < src.length), s.srcIdx ≤ i → i < j →
       skippable fs (src.get ⟨i, hi⟩) = true) :
    ((∃ i, (tsdNext src fs s).1 = .item i) ∨ (tsdNext src fs s).1 = .stop) ∧
    (∃ cf cl md, tsdNext src fs s = tsdNext src fs ⟨j, cf, cl, none, md⟩) := by
  constructor
  · cases hres : (tsdNext src fs s).1 with
    | item i => exact Or.inl ⟨i, rfl⟩
    | stop => exact Or.inr rfl
  · have main : ∀ (n i0 : Nat) (cf0 : Option String) (cl0 : Nat) (md0 : Metadata),
        i0 ≤ j → j - i0 = n →
        (∀ i (hi : i < src.length), i0 ≤ i → i < j →
           skippable fs (src.get ⟨i, hi⟩) = true) →
        ∃ cf cl md, tsdNext src fs ⟨i0, cf0, cl0, none, md0⟩
          = tsdNext src fs ⟨j, cf, cl, none, md⟩ := by
      intro n
      induction n with
      | zero =>
        intro i0 cf0 cl0 md0 hle0 hdiff _
        have heq : i0 = j := by omega
        subst heq
        exact ⟨cf0, cl0, md0, rfl⟩
      | succ n ih =>
        intro i0 cf0 cl0 md0 hle0 hdiff hsk
        have hlt : i0 < j := by omega
        have hi : i0 < src.length := by omega
        have hs0 := hsk i0 hi (le_refl _) hlt
        cases hfs : fs (srcData (src.get ⟨i0, hi⟩)) with
        | none =>
          have e := tsdNext_open_fail src fs ⟨i0, cf0, cl0, none, md0⟩ rfl hi hfs
          rw [e]
          exact ih (i0 + 1) _ _ _ (by omega) (by omega)
            (fun i hi2 h1 h2 => hsk i hi2 (by omega) h2)
        | some content =>
          have hemp : pyLines content = [] := by
            unfold skippable at hs0
            rw [hfs] at hs0
            simpa [List.isEmpty_iff] using hs0
          have e := tsdNext_open_ok src fs ⟨i0, cf0, cl0, none, md0⟩ rfl hi content hfs
          rw [e, hemp, tsdNext_eof _ _ _ rfl]
          exact ih (i0 + 1) _ _ _ (by omega) (by omega)
            (fun i hi2 h1 h2 => hsk i hi2 (by omega) h2)
    obtain ⟨i0, cf0, cl0, hd0, md0⟩ := s
    simp only at h0 hle hskip
    subst h0
    exact main (j - i0) i0 cf0 cl0 md0 hle rfl hskip

/-- Witness for tsd_next_total_skips: from a fresh state over the witness
source (a bad URI then an empty file then a readable file), the first call
result equals the call result starting past both skippable items. -/
theorem tsd_next_total_skips_witness :
    ((∃ i, (tsdNext c8src c8fs tsdInit).1 = .item i) ∨
      (tsdNext c8src c8fs tsdInit).1 = .stop) ∧
    (∃ cf cl md, tsdNext c8src c8fs tsdInit
      = tsdNext c8src c8fs ⟨2, cf, cl, none, md⟩) :=
  tsd_next_total_skips c8src c8fs tsdInit 2 rfl (by decide) (by decide)
    (by decide)

/-- C9: for a fixed backend snapshot the lister enumeration is a function
of backend and configuration only: any two reset instances (whatever
checkpoints they were handed) hold the same file list; that list before
scheme qualification is lexicographically sorted and duplicate-free and
holds exactly the union of the per-pattern matches; and for a non-local
backend every entry is scheme-qualified. -/
theorem lister_determinism (cfg : ListerConfig) (b : ListerBackend) :
    (∀ ck1 ck2 : Option ListerCk,
       (listerReset cfg b ck1).file_paths = (listerReset cfg b ck2).file_paths) ∧
    List.Sorted (fun a b => a ≤ b) (listerSorted cfg b) ∧
    (listerSorted cfg b).Nodup ∧
    (∀ p, p ∈ listerSorted cfg b ↔ p ∈ listerCollect cfg b) ∧
    (b.listFailure = false → cfg.protocol ≠ "file" →
       listerComputePaths cfg b
         = (listerSorted cfg b).map (fun path => cfg.protocol ++ "://" ++ path)) := by
  refine ⟨fun ck1 ck2 => rfl, ?_, ?_, fun p => ?_, fun h1 h2 => ?_⟩
  · exact List.sorted_insertionSort _ _
  · exact ((List.perm_insertionSort _ _).nodup_iff).mpr (List.nodup_dedup _)
  · exact (List.mem_insertionSort _).trans (List.mem_dedup)
  · simp [listerComputePaths, h1, h2]

/-- Witness for lister_determinism at the concrete remote backend: the
deduplicated sorted list of the glob results b, a, b is a, b; the final
paths carry the s3 scheme. -/
theorem lister_determinism_witness :
    (listerReset wCfg wBackend (some ⟨1⟩)).file_paths
      = (listerReset wCfg wBackend none).file_paths ∧
    List.Sorted (fun a b => a ≤ b) (listerSorted wCfg wBackend) ∧
    (listerSorted wCfg wBackend).Nodup ∧
    ("a" ∈ listerSorted wCfg wBackend ↔ "a" ∈ listerCollect wCfg wBackend) ∧
    listerComputePaths wCfg wBackend
      = (listerSorted wCfg wBackend).map (fun path => wCfg.protocol ++ "://" ++ path) := by
  have h := lister_determinism wCfg wBackend
  exact ⟨h.1 (some ⟨1⟩) none, h.2.1, h.2.2.1, h.2.2.2.1 "a",
         h.2.2.2.2 rfl (by decide)⟩
